import Mathlib

/-!
Verification of the attica repository's free-list storage allocator core and
its alignment arithmetic layer, as a shallow embedding in Lean 4.

Addresses and sizes are modelled as natural numbers; `uintptr_t` / `size_t`
arithmetic is 64-bit, so every operation that can wrap is reduced modulo
`2 ^ 64` exactly where the C source wraps.
-/

namespace Attica

/-- Width of the machine word (`uintptr_t`, `size_t`): 2^64. -/
def WORD : Nat := 2 ^ 64

/-- Bitwise NOT of a 64-bit word (operand assumed `< WORD`):
`~x = 2^64 - 1 - x`, since `x + ~x` is the all-ones word. -/
def not64 (x : Nat) : Nat := (WORD - 1) - x

/-! ## src/core/memory.c : alignment arithmetic -/

/-- `memory_is_power_of_two` (src/core/memory.c:18-20):
`(0 != value) && (0 == (value & (value - 1)))`. -/
def memory_is_power_of_two (value : Nat) : Bool :=
  (0 != value) && (0 == value &&& (value - 1))

/-- `memory_alignment_offset` (src/core/memory.c:22-25): `value & (alignment - 1)`. -/
def memory_alignment_offset (value alignment : Nat) : Nat :=
  value &&& (alignment - 1)

/-- `memory_is_aligned` (src/core/memory.c:27-30). -/
def memory_is_aligned (value alignment : Nat) : Bool :=
  0 == memory_alignment_offset value alignment

/-- `memory_align_up` (src/core/memory.c:32-35):
`(value + alignment - 1) & ~(alignment - 1)`, with the addition wrapping
modulo the machine word as in C. -/
def memory_align_up (value alignment : Nat) : Nat :=
  ((value + alignment - 1) % WORD) &&& not64 (alignment - 1)

/-- `memory_align_down` (src/core/memory.c:37-40): `value & ~(alignment - 1)`. -/
def memory_align_down (value alignment : Nat) : Nat :=
  value &&& not64 (alignment - 1)

/-- `memory_padding_needed` (src/core/memory.c:42-46):
`offset = memory_alignment_offset(address, alignment);
return (0 != offset) ? alignment - offset : 0;`. -/
def memory_padding_needed (address alignment : Nat) : Nat :=
  if memory_alignment_offset address alignment ≠ 0 then
    alignment - memory_alignment_offset address alignment
  else 0

/-- `memory_aligned_calloc` (src/core/memory.c:71-79) computes
`size_t total = n * size;` — a `size_t` product, hence reduced modulo the
machine word — and passes that `total` both to `memory_aligned_alloc` and to
`memset`. This definition is that `total`: the number of bytes the call
requests from the platform allocator and subsequently zeroes. -/
def memory_aligned_calloc_total (n size : Nat) : Nat :=
  (n * size) % WORD

end Attica

namespace Attica

/-! ## Bit-level facts about the masks used by the alignment functions. -/

theorem not64_pow_two_sub_one {k : Nat} (hk : k ≤ 64) :
    not64 (2 ^ k - 1) = 2 ^ 64 - 2 ^ k := by
  have h : 2 ^ k ≤ 2 ^ 64 := Nat.pow_le_pow_right (by norm_num) hk
  have h1 : 1 ≤ 2 ^ k := Nat.one_le_two_pow
  simp only [not64, WORD]
  omega

/-- Bitwise AND with the high mask `2^64 - 2^k` clears the low `k` bits:
for `x < 2^64` it equals `x - x % 2^k`. -/
theorem land_high_mask (x k : Nat) (hx : x < 2 ^ 64) (hk : k ≤ 64) :
    x &&& (2 ^ 64 - 2 ^ k) = x - x % 2 ^ k := by
  have hsplit : 2 ^ 64 - 2 ^ k = 2 ^ k * (2 ^ (64 - k) - 1) := by
    have : (2 : Nat) ^ 64 = 2 ^ k * 2 ^ (64 - k) := by
      rw [← pow_add]
      congr 1
      omega
    rw [this, Nat.mul_sub_one]
  have hdiv : x - x % 2 ^ k = 2 ^ k * (x / 2 ^ k) := by
    have := Nat.div_add_mod x (2 ^ k)
    omega
  rw [hsplit, hdiv]
  apply Nat.eq_of_testBit_eq
  intro i
  rw [Nat.testBit_land, Nat.testBit_mul_pow_two, Nat.testBit_mul_pow_two,
    Nat.testBit_two_pow_sub_one]
  by_cases hik : k ≤ i
  · by_cases hi64 : i < 64
    · have : x / 2 ^ k = x >>> k := (Nat.shiftRight_eq_div_pow x k).symm
      rw [this, Nat.testBit_shiftRight]
      have : k + (i - k) = i := by omega
      rw [this]
      simp [hik, Nat.lt_sub_iff_add_lt.mpr, show i - k < 64 - k by omega]
    · have hxi : x.testBit i = false :=
        Nat.testBit_lt_two_pow (lt_of_lt_of_le hx (Nat.pow_le_pow_right (by norm_num) (by omega)))
      have : x / 2 ^ k = x >>> k := (Nat.shiftRight_eq_div_pow x k).symm
      rw [this, Nat.testBit_shiftRight]
      have hki : k + (i - k) = i := by omega
      rw [hki, hxi]
      simp
  · simp [show ¬ (i ≥ k) from hik]

theorem land_low_mask (x k : Nat) : x &&& (2 ^ k - 1) = x % 2 ^ k :=
  Nat.and_pow_two_sub_one_eq_mod x k

/-! ## C1: behaviour of `memory_align_up` at the overflow boundary.

The source computes `(value + alignment - 1) & ~(alignment - 1)` with no
overflow guard, so for `value = UINTPTR_MAX - 6`, `alignment = 8` the sum
wraps to zero and the function returns `0` — not the saturated
`UINTPTR_MAX - 7` the specification requires (nor the `UINTPTR_MAX` that the
repository's own test `test_suite_memory_align_up` expects from the
"overflow guard"). -/

/-- C1: at `value = UINTPTR_MAX - 6 = 2^64 - 7`, `alignment = 8`,
`memory_align_up` wraps around and returns `0`, which differs from the
specified saturated result `UINTPTR_MAX - 7 = 2^64 - 8`. -/
theorem align_up_overflow_wraps_to_zero :
    memory_align_up (2 ^ 64 - 7) 8 = 0 ∧ (0 : Nat) ≠ 2 ^ 64 - 8 := by
  constructor
  · have h : (2 ^ 64 - 7 + 8 - 1) % WORD = 0 := by
      have : 2 ^ 64 - 7 + 8 - 1 = 2 ^ 64 := by norm_num
      rw [this, WORD, Nat.mod_self]
    rw [memory_align_up, h]
    simp [Nat.zero_and]
  · have : (7 : Nat) < 2 ^ 64 := by norm_num
    omega

/-! ## C9: the padding identity `align_up(v, A) = v + padding_needed(v, A)`,
with the addition taken in machine arithmetic (mod `2^64`), exactly as the two
C functions compute: it holds for every machine word `v` and every
power-of-two alignment, including the values where `v + A - 1` overflows. -/

/-- C9: for every `v < 2^64` and power-of-two alignment `A = 2^k`,
`memory_align_up v A = (v + memory_padding_needed v A) mod 2^64`. -/
theorem padding_identity (v A k : Nat) (hv : v < WORD) (hk : k < 64)
    (hA : A = 2 ^ k) :
    memory_align_up v A = (v + memory_padding_needed v A) % WORD := by
  subst hA
  have hP0 : 0 < 2 ^ k := pow_pos (by norm_num) k
  have h2P : 2 * 2 ^ k ≤ 2 ^ 64 := by
    have h1 : 2 * 2 ^ k = 2 ^ (k + 1) := (pow_succ 2 k).symm ▸ by ring
    have h2 : (2 : Nat) ^ (k + 1) ≤ 2 ^ 64 := Nat.pow_le_pow_right (by norm_num) (by omega)
    omega
  have hqr : 2 ^ k * (v / 2 ^ k) + v % 2 ^ k = v := Nat.div_add_mod v (2 ^ k)
  have hrP : v % 2 ^ k < 2 ^ k := Nat.mod_lt v hP0
  have hoffset : memory_alignment_offset v (2 ^ k) = v % 2 ^ k := land_low_mask v k
  have hmask : not64 (2 ^ k - 1) = 2 ^ 64 - 2 ^ k := not64_pow_two_sub_one (by omega)
  have hxlt : (v + 2 ^ k - 1) % WORD < 2 ^ 64 := by
    simp only [WORD]
    exact Nat.mod_lt _ (by norm_num)
  rw [memory_align_up, hmask, land_high_mask _ k hxlt (by omega),
      memory_padding_needed, hoffset]
  simp only [WORD] at hv ⊢
  by_cases hr : v % 2 ^ k = 0
  · simp only [hr, ne_eq, not_true_eq_false, if_false]
    have hd : 2 ^ k ∣ v := Nat.dvd_of_mod_eq_zero hr
    have hd64 : (2 : Nat) ^ k ∣ 2 ^ 64 := pow_dvd_pow 2 (by omega)
    have hvK : v + 2 ^ k ≤ 2 ^ 64 := by
      rcases Nat.eq_zero_or_pos v with h0 | h0
      · omega
      · have hsub : 2 ^ k ∣ (2 ^ 64 - v) := Nat.dvd_sub' hd64 hd
        have := Nat.le_of_dvd (by omega) hsub
        omega
    have hxeq : (v + 2 ^ k - 1) % 2 ^ 64 = v + 2 ^ k - 1 :=
      Nat.mod_eq_of_lt (by omega)
    have hxmod : (v + 2 ^ k - 1) % 2 ^ k = 2 ^ k - 1 := by
      have hsplit : v + 2 ^ k - 1 = 2 ^ k * (v / 2 ^ k) + (2 ^ k - 1) := by omega
      rw [hsplit, Nat.mul_add_mod, Nat.mod_eq_of_lt (by omega)]
    rw [hxeq, hxmod]
    have hvmod : (v + 0) % 2 ^ 64 = v := by
      rw [Nat.add_zero]
      exact Nat.mod_eq_of_lt hv
    omega
  · simp only [ne_eq, hr, not_false_eq_true, if_true]
    have hd64 : (2 : Nat) ^ k ∣ 2 ^ 64 := pow_dvd_pow 2 (by omega)
    have hdq : (2 : Nat) ^ k ∣ 2 ^ k * (v / 2 ^ k) := Dvd.intro _ rfl
    have hqle : 2 ^ k * (v / 2 ^ k) ≤ 2 ^ 64 - 2 ^ k := by
      have hsub : 2 ^ k ∣ (2 ^ 64 - 2 ^ k * (v / 2 ^ k)) := Nat.dvd_sub' hd64 hdq
      have := Nat.le_of_dvd (by omega) hsub
      omega
    rcases Nat.lt_or_ge (2 ^ k * (v / 2 ^ k)) (2 ^ 64 - 2 ^ k) with hlt | hge
    · -- interior case: no wrap-around
      have hqle2 : 2 ^ k * (v / 2 ^ k) ≤ 2 ^ 64 - 2 * 2 ^ k := by
        have hsub : 2 ^ k ∣ (2 ^ 64 - 2 ^ k - 2 ^ k * (v / 2 ^ k)) := by
          have h1 : (2 : Nat) ^ k ∣ 2 ^ 64 - 2 ^ k := Nat.dvd_sub' hd64 dvd_rfl
          exact Nat.dvd_sub' h1 hdq
        have := Nat.le_of_dvd (by omega) hsub
        omega
      have hxeq : (v + 2 ^ k - 1) % 2 ^ 64 = v + 2 ^ k - 1 :=
        Nat.mod_eq_of_lt (by omega)
      have hmul : 2 ^ k * (v / 2 ^ k + 1) = 2 ^ k * (v / 2 ^ k) + 2 ^ k := by ring
      have hxmod : (v + 2 ^ k - 1) % 2 ^ k = v % 2 ^ k - 1 := by
        have hsplit : v + 2 ^ k - 1 = 2 ^ k * (v / 2 ^ k + 1) + (v % 2 ^ k - 1) := by
          omega
        rw [hsplit, Nat.mul_add_mod, Nat.mod_eq_of_lt (by omega)]
      have hrhs : (v + (2 ^ k - v % 2 ^ k)) % 2 ^ 64 = v + (2 ^ k - v % 2 ^ k) :=
        Nat.mod_eq_of_lt (by omega)
      rw [hxeq, hxmod, hrhs]
      omega
    · -- top chunk: `v + A - 1` wraps; both sides are 0
      have heq : 2 ^ k * (v / 2 ^ k) = 2 ^ 64 - 2 ^ k := by omega
      have hxeq : (v + 2 ^ k - 1) % 2 ^ 64 = v % 2 ^ k - 1 := by
        have hsplit : v + 2 ^ k - 1 = 2 ^ 64 + (v % 2 ^ k - 1) := by omega
        rw [hsplit, Nat.add_mod_left, Nat.mod_eq_of_lt (by omega)]
      have hrhs : (v + (2 ^ k - v % 2 ^ k)) % 2 ^ 64 = 0 := by
        have hsplit : v + (2 ^ k - v % 2 ^ k) = 2 ^ 64 := by omega
        rw [hsplit, Nat.mod_self]
      rw [hxeq, hrhs, Nat.mod_eq_of_lt (show v % 2 ^ k - 1 < 2 ^ k by omega)]
      omega

/-- Witness for C9 at `v = 5`, `A = 8` (and, through C1's theorem, the
overflow case is also covered): `align_up 5 8 = 8 = 5 + padding 5 8`. -/
theorem padding_identity_witness :
    (5 : Nat) < WORD ∧ 3 < 64 ∧ (8 : Nat) = 2 ^ 3 ∧
      memory_align_up 5 8 = (5 + memory_padding_needed 5 8) % WORD := by
  refine ⟨by norm_num [WORD], by norm_num, by norm_num, ?_⟩
  exact padding_identity 5 8 3 (by norm_num [WORD]) (by norm_num) (by norm_num)

/-! ## C10: `memory_aligned_calloc` performs no overflow check on `n * size`. -/

/-- C10: when the mathematical product `n * size` exceeds `SIZE_MAX`,
`memory_aligned_calloc` requests (and zeroes) only the wrapped
`n * size mod 2^64` bytes, which is strictly smaller than the product
actually asked for. -/
theorem aligned_calloc_no_overflow_check (n size : Nat)
    (h : n * size > WORD - 1) :
    memory_aligned_calloc_total n size = (n * size) % WORD ∧
      memory_aligned_calloc_total n size < n * size := by
  refine ⟨rfl, ?_⟩
  have hW : 0 < WORD := by norm_num [WORD]
  have hlt : (n * size) % WORD < WORD := Nat.mod_lt _ hW
  simp only [memory_aligned_calloc_total]
  omega

/-- Witness for C10 at `n = size = 2^32`: the product is `2^64`, the wrapped
total is `0`, so the call zeroes zero bytes yet can report success. -/
theorem aligned_calloc_no_overflow_check_witness :
    (2 ^ 32 : Nat) * 2 ^ 32 > WORD - 1 ∧
      memory_aligned_calloc_total (2 ^ 32) (2 ^ 32) = (2 ^ 32 * 2 ^ 32) % WORD ∧
      memory_aligned_calloc_total (2 ^ 32) (2 ^ 32) < 2 ^ 32 * 2 ^ 32 :=
  ⟨by norm_num [WORD],
   aligned_calloc_no_overflow_check (2 ^ 32) (2 ^ 32) (by norm_num [WORD])⟩

/-! ## C7: `system_max_ram` (src/allocator/knr.c:43-62). -/

/-- `DSA_FALLBACK_MAX_RAM` (include/allocator/knr.h): 4 GiB. -/
def DSA_FALLBACK_MAX_RAM : Nat := 2 ^ 32

/-- `DSA_RAM_RESERVE` (include/allocator/knr.h): 1 GiB. -/
def DSA_RAM_RESERVE : Nat := 2 ^ 30

/-- The `max_ram` value `system_max_ram` computes before applying the
reserve/floor step: `pages * page_size` as a `size_t` product when both
`sysconf` results are positive, else the 4 GiB fallback
(src/allocator/knr.c:47-52). -/
def system_reported_ram (pages page_size : Int) : Nat :=
  if pages ≤ 0 ∨ page_size ≤ 0 then DSA_FALLBACK_MAX_RAM
  else (pages.toNat * page_size.toNat) % WORD

/-- `system_max_ram` (src/allocator/knr.c:43-62): subtract the reserve when
the reported total exceeds it, otherwise return the fixed 16 MiB minimum. -/
def system_max_ram (pages page_size : Int) : Nat :=
  if system_reported_ram pages page_size > DSA_RAM_RESERVE then
    system_reported_ram pages page_size - DSA_RAM_RESERVE
  else 16 * 1024 * 1024

/-- C7 counterexample: with reported RAM `1 GiB + 4 KiB`
(`pages = 262145`, `page_size = 4096`), the code returns `4096` bytes,
whereas `max(ram_total() - RESERVE, FLOOR)` would be 16 MiB. -/
theorem system_max_ram_not_max_counterexample :
    system_max_ram 262145 4096 = 4096 ∧
      max ((262145 * 4096 : Nat) - DSA_RAM_RESERVE) (16 * 1024 * 1024)
        = 16777216 ∧
      (4096 : Nat) ≠ 16777216 := by
  refine ⟨?_, ?_, by norm_num⟩
  · simp only [system_max_ram, system_reported_ram, DSA_FALLBACK_MAX_RAM,
      DSA_RAM_RESERVE, WORD]
    norm_num
    decide
  · norm_num [DSA_RAM_RESERVE]

/-- C7 amended: `system_max_ram` returns `total - RESERVE` when
`total > RESERVE` and the 16 MiB floor otherwise; hence it agrees with
`max(total - RESERVE, FLOOR)` except in the window
`RESERVE < total < RESERVE + FLOOR` (where it returns less than the floor),
and the 4 GiB fallback stands in for the reported total when the platform
cannot report RAM. -/
theorem system_max_ram_spec (pages page_size : Int)
    (h : ¬ (DSA_RAM_RESERVE < system_reported_ram pages page_size ∧
            system_reported_ram pages page_size
              < DSA_RAM_RESERVE + 16 * 1024 * 1024)) :
    system_max_ram pages page_size =
      max (system_reported_ram pages page_size - DSA_RAM_RESERVE)
        (16 * 1024 * 1024) ∧
    (pages ≤ 0 ∨ page_size ≤ 0 →
      system_reported_ram pages page_size = DSA_FALLBACK_MAX_RAM) := by
  constructor
  · rw [system_max_ram]
    rcases Nat.lt_or_ge DSA_RAM_RESERVE (system_reported_ram pages page_size)
      with hlt | hge
    · rw [if_pos hlt]
      have hbig : DSA_RAM_RESERVE + 16 * 1024 * 1024
          ≤ system_reported_ram pages page_size := by omega
      rw [Nat.max_eq_left (by omega)]
    · rw [if_neg (by omega)]
      rw [Nat.max_eq_right (by omega)]
  · intro hp
    rw [system_reported_ram, if_pos hp]

/-- Witness for C7's amended theorem at `pages = 2^20`, `page_size = 4096`
(total 4 GiB, outside the window): the ceiling is `4 GiB - 1 GiB = 3 GiB`. -/
theorem system_max_ram_spec_witness :
    system_max_ram (2 ^ 20) 4096 =
      max (system_reported_ram (2 ^ 20) 4096 - DSA_RAM_RESERVE)
        (16 * 1024 * 1024) ∧
    ((2 ^ 20 : Int) ≤ 0 ∨ (4096 : Int) ≤ 0 →
      system_reported_ram (2 ^ 20) 4096 = DSA_FALLBACK_MAX_RAM) := by
  have hrep : system_reported_ram (2 ^ 20) 4096 = 2 ^ 32 := by
    simp only [system_reported_ram, WORD]
    norm_num
    decide
  exact system_max_ram_spec (2 ^ 20) 4096 (by rw [hrep]; norm_num [DSA_RAM_RESERVE])

/-! ## src/allocator/knr.c (first translation unit): the K&R free-list core.

Block headers are `FreeList` records (`next` pointer, `size` in units).
Addresses are unit-scaled: one address step is one `FreeList` header
(`sizeof(FreeList)` bytes), matching the `FreeList*` pointer arithmetic the
source performs (`a + a->size`, `block + 1`, ...). -/

/-- A block header (`FreeList`, include/allocator/knr.h): forward link and
size of the block in units. -/
structure Node where
  next : Nat
  size : Nat
deriving DecidableEq, Repr

/-- Process memory holding block headers: an association list from
unit-scaled addresses to header contents. Unwritten memory reads as zero
(static storage and fresh anonymous `mmap` pages are zero-filled). -/
abbrev Mem := List (Nat × Node)

/-- Read the header at address `a`. -/
def mget (m : Mem) (a : Nat) : Node := (m.lookup a).getD ⟨0, 0⟩

/-- Write the header at address `a`. -/
def mset (m : Mem) (a : Nat) (n : Node) : Mem := (a, n) :: m

/-- The allocator's globals (src/allocator/knr.c:25-32): the memory, the
static sentinel's (fixed) address `base`, the head cursor `freelist`
(`none` = `NULL`), and `MAX_RAM` (`0` = not yet computed). -/
structure KnrState where
  mem : Mem
  base : Nat
  freelist : Option Nat
  maxRam : Nat
deriving DecidableEq, Repr

/-- `allocator_freelist_init` (src/allocator/knr.c:64-73): set `MAX_RAM` on
first use (`ramMax` stands for the `system_max_ram()` result) and, when the
list is uninitialized, link the sentinel to itself and point the head at it. -/
def allocator_freelist_init (ramMax : Nat) (s : KnrState) : KnrState :=
  let s1 := if s.maxRam = 0 then { s with maxRam := ramMax } else s
  match s1.freelist with
  | some _ => s1
  | none =>
    { s1 with
      mem := mset s1.mem s1.base ⟨s1.base, (mget s1.mem s1.base).size⟩,
      freelist := some s1.base }

/-- The insert-point search loop of `allocator_freelist_insert`
(src/allocator/knr.c:96-104), with explicit fuel: starting from `cur`, stop
at the first node satisfying the loop's exit condition — either
`block > current && block < current->next`, or the special case written
`((current >= current->next) && (block > current)) || block < current->next`
in the source. -/
def insertScan (m : Mem) (block : Nat) : Nat → Nat → Option Nat
  | 0, _ => none
  | fuel + 1, cur =>
    let nxt := (mget m cur).next
    if block > cur ∧ block < nxt then some cur
    else if (cur ≥ nxt ∧ block > cur) ∨ block < nxt then some cur
    else insertScan m block fuel nxt

/-- `allocator_freelist_insert` (src/allocator/knr.c:92-122). `ptr` is a
payload address; the block header sits one unit below it. After the scan
finds `current`, merge with the upper neighbour when
`block + block->size == current->next` (else just link `block->next =
current->next`), then merge with the lower neighbour when
`current + current->size == block` (else link `current->next = block`),
and finally park the head cursor at `current`. `none` means the C loop
would not have stopped within `fuel` steps. -/
def allocator_freelist_insert (fuel : Nat) (s : KnrState) (ptr : Nat) :
    Option KnrState :=
  match s.freelist with
  | none => none
  | some fl =>
    let block := ptr - 1
    match insertScan s.mem block fuel fl with
    | none => none
    | some cur =>
      let cnext := (mget s.mem cur).next
      let m1 :=
        if block + (mget s.mem block).size = cnext then
          mset s.mem block
            ⟨(mget s.mem cnext).next,
             (mget s.mem block).size + (mget s.mem cnext).size⟩
        else
          mset s.mem block ⟨cnext, (mget s.mem block).size⟩
      let m2 :=
        if cur + (mget m1 cur).size = block then
          mset m1 cur
            ⟨(mget m1 block).next, (mget m1 cur).size + (mget m1 block).size⟩
        else
          mset m1 cur ⟨block, (mget m1 cur).size⟩
      some { s with mem := m2, freelist := some cur }

/-- `HEADER_SIZE` = `sizeof(FreeList)` = 16 bytes on LP64. -/
def HEADER_SIZE : Nat := 16

/-- `MEMORY_ALIGNMENT` = `alignof(max_align_t)` = 16 bytes on x86-64. -/
def MEMORY_ALIGNMENT : Nat := 16

/-- `allocator_freelist_heap_bump` (src/allocator/knr.c:127-145): round the
byte cost of `nunits` units up to the page size, obtain zeroed pages from
`mmap` (`mmapAddr = none` models `MAP_FAILED`; a returned address is
unit-scaled), stamp the new block's size, and insert its payload into the
free list. The outer `none` means the insert loop ran out of fuel;
`some none` is the C function returning `NULL`. -/
def allocator_freelist_heap_bump (pageSize : Nat) (mmapAddr : Option Nat)
    (fuel : Nat) (s : KnrState) (nunits : Nat) : Option (Option KnrState) :=
  let nbytes := nunits * HEADER_SIZE
  let nbytes :=
    if nbytes % pageSize ≠ 0 then nbytes + (pageSize - nbytes % pageSize)
    else nbytes
  match mmapAddr with
  | none => some none
  | some addr =>
    let s1 :=
      { s with
        mem := mset s.mem addr ⟨(mget s.mem addr).next, nbytes / HEADER_SIZE⟩ }
    match allocator_freelist_insert fuel s1 (addr + 1) with
    | none => none
    | some s2 => some (some s2)

/-- The first-fit loop of `allocator_freelist_malloc`
(src/allocator/knr.c:163-190), with fuel. `mmaps` supplies the platform's
successive `mmap` answers. `none` = the model ran out of fuel (or of
platform answers); otherwise `some (r, s')` with `r` the returned payload
address (`none` = `NULL`). -/
def mallocLoop (pageSize : Nat) (mmaps : List (Option Nat)) (ifuel : Nat)
    (s : KnrState) (nunits : Nat) (prev cur : Nat) :
    Nat → Option (Option Nat × KnrState)
  | 0 => none
  | fuel + 1 =>
    let curN := mget s.mem cur
    if curN.size ≥ nunits then
      if curN.size = nunits then
        let m1 := mset s.mem prev ⟨curN.next, (mget s.mem prev).size⟩
        some (some (cur + 1), { s with mem := m1, freelist := some prev })
      else
        let alloc := cur + curN.size - nunits
        let m1 := mset s.mem alloc ⟨(mget s.mem alloc).next, nunits⟩
        let m2 := mset m1 cur ⟨(mget m1 cur).next, (mget m1 cur).size - nunits⟩
        some (some (alloc + 1), { s with mem := m2, freelist := some prev })
    else
      if some cur = s.freelist then
        match mmaps with
        | [] => none
        | mm :: rest =>
          match allocator_freelist_heap_bump pageSize mm ifuel s nunits with
          | none => none
          | some none => some (none, s)
          | some (some s') =>
            mallocLoop pageSize rest ifuel s' nunits cur
              ((mget s'.mem cur).next) fuel
      else
        mallocLoop pageSize mmaps ifuel s nunits cur curN.next fuel

/-- Modelled from the spec: `memory_aligned_size` is called by
`allocator_freelist_malloc` (src/allocator/knr.c:160) but its definition is
missing from the sources; the spec's request-sizing step 1 (§4.4) defines
the rounded payload as `align_up(n, A)`, so we model it as `memory_align_up`. -/
def memory_aligned_size (size alignment : Nat) : Nat :=
  memory_align_up size alignment

/-- `allocator_freelist_malloc` (src/allocator/knr.c:154-191): initialize
lazily, reject `size == 0` and `size > MAX_RAM`, convert the request to a
unit count `(payload + HEADER_SIZE - 1) / HEADER_SIZE + 1`, then run the
first-fit search from `freelist->next`. -/
def allocator_freelist_malloc (ramMax pageSize : Nat)
    (mmaps : List (Option Nat)) (fuel ifuel : Nat) (s : KnrState)
    (size : Nat) : Option (Option Nat × KnrState) :=
  let s0 := allocator_freelist_init ramMax s
  if size = 0 ∨ size > s0.maxRam then some (none, s0)
  else
    let payload := memory_aligned_size size MEMORY_ALIGNMENT
    let nunits := (payload + HEADER_SIZE - 1) / HEADER_SIZE + 1
    match s0.freelist with
    | none => none
    | some fl =>
      mallocLoop pageSize mmaps ifuel s0 nunits fl ((mget s0.mem fl).next) fuel

/-- `allocator_freelist_free` (src/allocator/knr.c:196-201): `NULL` is a
no-op, otherwise reinsert the block at `ptr`. -/
def allocator_freelist_free (ifuel : Nat) (s : KnrState) (ptr : Option Nat) :
    Option KnrState :=
  match ptr with
  | none => some s
  | some p => allocator_freelist_insert ifuel s p

/-! ## C2: the no-adjacency invariant is violated by a legal trace.

The insert loop's special case is written
`((current >= current->next) && (block > current)) || block < current->next`
(src/allocator/knr.c:99), whereas the repository's own walkthrough
(src/docs/allocator/freelist.md) and the cited K&R reference use
`current >= current->next && (block > current || block < current->next)`.
With the mis-parenthesized condition, freeing a block whose address lies
below the current head cursor stops the scan immediately and inserts the
block out of address order. Once the ring is unsorted, an exact-fit
allocation can unlink the node standing between two physically adjacent free
blocks, leaving consecutive free-list neighbours `a`, `a->next` with
`a + a->size == a->next` and no coalescing.

The trace below exercises only the public API (`malloc`/`free` of previously
returned pointers). The sentinel lives at unit address 1000; `mmap` returns
two page-aligned, pairwise disjoint regions at unit addresses 256 and 2048
(4096-byte pages, 16-byte units); `MAX_RAM` is 10^9 bytes. -/

/-- Initial state for the C2 trace: empty memory, sentinel at unit
address 1000, uninitialized globals. -/
def c2InitialState : KnrState := ⟨[], 1000, none, 0⟩

/-- The C2 trace: malloc 48, 4016, 32, 32 bytes; free the 1st, 4th, then
(after a 64-byte malloc moves the cursor) the 3rd allocation; two further
mallocs (3904 and 48 bytes) then unlink the nodes sitting between the two
physically adjacent freed blocks at unit addresses 2298 and 2301. -/
def c2Trace : Option KnrState := do
  let (r1, s1) ←
    allocator_freelist_malloc 1000000000 4096 [some 256] 50 50 c2InitialState 48
  let (_r2, s2) ← allocator_freelist_malloc 1000000000 4096 [] 50 50 s1 4016
  let (r3, s3) ←
    allocator_freelist_malloc 1000000000 4096 [some 2048] 50 50 s2 32
  let (r4, s4) ← allocator_freelist_malloc 1000000000 4096 [] 50 50 s3 32
  let s5 ← allocator_freelist_free 50 s4 r1
  let s6 ← allocator_freelist_free 50 s5 r4
  let (_r7, s7) ← allocator_freelist_malloc 1000000000 4096 [] 50 50 s6 64
  let s8 ← allocator_freelist_free 50 s7 r3
  let (_r9, s9) ← allocator_freelist_malloc 1000000000 4096 [] 50 50 s8 3904
  let (_r10, s10) ← allocator_freelist_malloc 1000000000 4096 [] 50 50 s9 48
  pure s10

set_option maxRecDepth 10000 in
/-- C2: after the legal malloc/free sequence `c2Trace`, the head cursor sits
on the free node at unit address 2298 whose successor is the free node at
2301, and `2298 + size(2298) = 2298 + 3 = 2301`: two neighbouring free-list
nodes are address-adjacent, contradicting the claimed invariant
`a + a->size != a->next`. -/
theorem freelist_nonadjacency_violated :
    c2Trace.map
        (fun s => (s.freelist, (mget s.mem 2298).next, (mget s.mem 2298).size))
      = some (some 2298, 2301, 3) ∧ 2298 + 3 = 2301 := by
  constructor
  · decide
  · rfl

/-! ## Reading and writing headers. -/

theorem mget_mset_self (m : Mem) (a : Nat) (v : Node) :
    mget (mset m a v) a = v := by
  simp [mget, mset, List.lookup]

theorem mget_mset_ne (m : Mem) (a b : Nat) (v : Node) (h : b ≠ a) :
    mget (mset m a v) b = mget m b := by
  have hba : (b == a) = false := beq_eq_false_iff_ne.mpr h
  simp [mget, mset, List.lookup, hba]

/-! ## C3: three-way coalescing on free, and the head cursor after free. -/

/-- C3: when `allocator_freelist_insert` frees block `b` (payload `b + 1`),
the scan finds insertion point `c` with successor `n`, and both adjacency
checks fire (`c + size(c) = b` and `b + size(b) = n`), the three nodes merge
into the single node `c`, whose size is the sum of the three sizes and whose
successor is `n`'s old successor; and the head cursor is parked at `c` —
as it is after every free that reaches the splice (the final state always
has `freelist = c`, the node the scan stopped at). -/
theorem insert_coalesce_both_sides (s : KnrState) (fl b c n ifuel : Nat)
    (hfl : s.freelist = some fl)
    (hscan : insertScan s.mem b ifuel fl = some c)
    (hn : (mget s.mem c).next = n)
    (hupper : b + (mget s.mem b).size = n)
    (hlower : c + (mget s.mem c).size = b)
    (hcb : c ≠ b) :
    ∃ s', allocator_freelist_insert ifuel s (b + 1) = some s' ∧
      mget s'.mem c =
        ⟨(mget s.mem n).next,
         (mget s.mem c).size + (mget s.mem b).size + (mget s.mem n).size⟩ ∧
      s'.freelist = some c := by
  rw [allocator_freelist_insert, hfl]
  simp only [Nat.add_sub_cancel, hscan]
  rw [hn]
  rw [if_pos hupper]
  rw [mget_mset_ne _ _ _ _ hcb]
  rw [if_pos hlower]
  refine ⟨_, rfl, ?_, rfl⟩
  rw [mget_mset_self, mget_mset_self]
  simp [Nat.add_assoc]

/-- Witness for C3: ring `c = (10, size 2) → n = (14, size 2)`, freeing the
block at 12 (size 2) that touches both; the three merge into `(10, size 6)`
and the cursor lands on 10. -/
theorem insert_coalesce_both_sides_witness :
    ∃ s', allocator_freelist_insert 5
        ⟨[(10, ⟨14, 2⟩), (14, ⟨10, 2⟩), (12, ⟨0, 2⟩)], 10, some 10, 1⟩ (12 + 1)
        = some s' ∧
      mget s'.mem 10 = ⟨10, 6⟩ ∧ s'.freelist = some 10 := by
  obtain ⟨s', h1, h2, h3⟩ :=
    insert_coalesce_both_sides
      ⟨[(10, ⟨14, 2⟩), (14, ⟨10, 2⟩), (12, ⟨0, 2⟩)], 10, some 10, 1⟩
      10 12 10 14 5 rfl (by decide) (by decide) (by decide) (by decide) (by decide)
  refine ⟨s', h1, ?_, h3⟩
  rw [h2]
  decide

/-! ## C4: the head cursor after a successful allocation.

The source sets `freelist = previous` in BOTH fit branches
(src/allocator/knr.c:178), so after a split fit the cursor is the
predecessor of the (shrunken) fitting block — not the fitting block itself
as the claim states. -/

/-- State for the C4 counterexample: sentinel at 1000, one free block of 10
units at 256, cursor on the sentinel. -/
def c4State : KnrState :=
  ⟨[(1000, ⟨256, 0⟩), (256, ⟨1000, 10⟩)], 1000, some 1000, 1000000⟩

/-- C4 counterexample: `malloc(32)` (3 units) split-fits the 10-unit block
at 256 (oversize, so the block is shrunk to 7 units and stays in place), yet
the head cursor afterwards is the predecessor `1000`, not the shrunken
fitting block `256`. -/
theorem malloc_split_head_not_shrunken_counterexample :
    (allocator_freelist_malloc 1000000 4096 [] 10 10 c4State 32).map
        (fun p => (p.1, p.2.freelist, (mget p.2.mem 256).size))
      = some (some 264, some 1000, 7) ∧
    (mget c4State.mem 256).size > 3 ∧ some 1000 ≠ some (256 : Nat) := by
  refine ⟨by decide, by decide, by decide⟩

/-- C4 amended: after every successful allocation the head cursor equals the
node that was the predecessor (`previous`) of the fitting block — for the
exact fit AND for the split fit alike; the returned payload is `cur + 1` for
an exact fit and sits at the carved tail for a split fit. -/
theorem malloc_fit_head_is_predecessor (pageSize : Nat)
    (mmaps : List (Option Nat)) (ifuel fuel : Nat) (s : KnrState)
    (nunits prev cur : Nat) (hfit : (mget s.mem cur).size ≥ nunits) :
    ∃ r s', mallocLoop pageSize mmaps ifuel s nunits prev cur (fuel + 1)
        = some (some r, s') ∧
      s'.freelist = some prev ∧
      ((mget s.mem cur).size = nunits → r = cur + 1) ∧
      ((mget s.mem cur).size > nunits →
        r = cur + (mget s.mem cur).size - nunits + 1) := by
  simp only [mallocLoop]
  rw [if_pos hfit]
  by_cases hexact : (mget s.mem cur).size = nunits
  · rw [if_pos hexact]
    exact ⟨cur + 1, _, rfl, rfl, fun _ => rfl, fun h => absurd hexact (by omega)⟩
  · rw [if_neg hexact]
    exact ⟨_, _, rfl, rfl, fun h => absurd h hexact, fun _ => rfl⟩

/-- Witness for C4's amended theorem: on `c4State`'s ring, the split fit of
3 units at block 256 leaves the cursor on the predecessor 1000 and returns
payload `256 + 10 - 3 + 1 = 264`. -/
theorem malloc_fit_head_is_predecessor_witness :
    ∃ r s', mallocLoop 4096 [] 10 c4State 3 1000 256 (9 + 1)
        = some (some r, s') ∧
      s'.freelist = some 1000 ∧
      ((mget c4State.mem 256).size = 3 → r = 256 + 1) ∧
      ((mget c4State.mem 256).size > 3 →
        r = 256 + (mget c4State.mem 256).size - 3 + 1) :=
  malloc_fit_head_is_predecessor 4096 [] 10 9 c4State 3 1000 256 (by decide)

/-! ## C5: request sizing and the stored size of handed-out blocks. -/

/-- The spec's `ceil(x / unit)`: the number of whole `unit`-sized objects
needed to cover `x` bytes, written by cases on divisibility rather than via
the `(x + unit - 1) / unit` device the code uses. -/
def specCeilDiv (x unit : Nat) : Nat :=
  x / unit + if x % unit = 0 then 0 else 1

/-- The code's rounding device computes the ceiling division. -/
theorem ceil_formula (x u : Nat) (hu : 0 < u) :
    (x + u - 1) / u = specCeilDiv x u := by
  have hqr : u * (x / u) + x % u = x := Nat.div_add_mod x u
  have hru : x % u < u := Nat.mod_lt x hu
  by_cases hr : x % u = 0
  · have h1 : x + u - 1 = (u - 1) + u * (x / u) := by omega
    rw [h1, Nat.add_mul_div_left _ _ hu, Nat.div_eq_of_lt (by omega)]
    simp [specCeilDiv, hr]
  · have hmul : u * (x / u + 1) = u * (x / u) + u := by ring
    have h1 : x + u - 1 = (x % u - 1) + u * (x / u + 1) := by omega
    rw [h1, Nat.add_mul_div_left _ _ hu, Nat.div_eq_of_lt (by omega)]
    simp [specCeilDiv, hr]

/-- Every successful pass through the first-fit loop returns a payload
address one unit past a header whose stored size is exactly `nunits` —
for exact fits, split fits, and after any number of heap growths. -/
theorem mallocLoop_success_size (pageSize ifuel nunits : Nat) :
    ∀ (fuel : Nat) (mmaps : List (Option Nat)) (s : KnrState)
      (prev cur r : Nat) (s' : KnrState),
      mallocLoop pageSize mmaps ifuel s nunits prev cur fuel
          = some (some r, s') →
      ∃ a, r = a + 1 ∧ (mget s'.mem a).size = nunits := by
  intro fuel
  induction fuel with
  | zero =>
    intro mmaps s prev cur r s' h
    simp [mallocLoop] at h
  | succ fuel ih =>
    intro mmaps s prev cur r s' h
    simp only [mallocLoop] at h
    by_cases hfit : (mget s.mem cur).size ≥ nunits
    · rw [if_pos hfit] at h
      by_cases hexact : (mget s.mem cur).size = nunits
      · rw [if_pos hexact] at h
        obtain ⟨hr, hs⟩ : cur + 1 = r ∧ _ = s' := by
          simpa using h
        refine ⟨cur, hr.symm, ?_⟩
        rw [← hs]
        by_cases hpc : prev = cur
        · subst hpc
          rw [mget_mset_self]
          simpa using hexact
        · rw [mget_mset_ne _ _ _ _ (Ne.symm hpc)]
          exact hexact
      · rw [if_neg hexact] at h
        obtain ⟨hr, hs⟩ : cur + (mget s.mem cur).size - nunits + 1 = r ∧ _ = s' := by
          simpa using h
        refine ⟨cur + (mget s.mem cur).size - nunits, hr.symm, ?_⟩
        rw [← hs]
        have hne : cur + (mget s.mem cur).size - nunits ≠ cur := by omega
        rw [mget_mset_ne _ _ _ _ hne, mget_mset_self]
    · rw [if_neg hfit] at h
      by_cases hcur : some cur = s.freelist
      · rw [if_pos hcur] at h
        split at h
        · simp at h
        · split at h
          · simp at h
          · simp at h
          · exact ih _ _ _ _ _ _ h
      · rw [if_neg hcur] at h
        exact ih _ _ _ _ _ _ h

/-- C5: every pointer a successful `allocator_freelist_malloc(size)` returns
is one unit past its block header, the stored size of that block is
`ceil(align_up(size, A) / unit) + 1` units (`A = MEMORY_ALIGNMENT`,
`unit = HEADER_SIZE`), and the payload accordingly spans
`stored size − 1 = ceil(align_up(size, A) / unit)` units. -/
theorem malloc_request_sizing (ramMax pageSize : Nat)
    (mmaps : List (Option Nat)) (fuel ifuel : Nat) (s : KnrState)
    (size r : Nat) (s' : KnrState)
    (h : allocator_freelist_malloc ramMax pageSize mmaps fuel ifuel s size
          = some (some r, s')) :
    ∃ a, r = a + 1 ∧
      (mget s'.mem a).size
        = specCeilDiv (memory_aligned_size size MEMORY_ALIGNMENT) HEADER_SIZE
            + 1 ∧
      (mget s'.mem a).size - 1
        = specCeilDiv (memory_aligned_size size MEMORY_ALIGNMENT) HEADER_SIZE := by
  simp only [allocator_freelist_malloc] at h
  split at h
  · simp at h
  · split at h
    · simp at h
    · obtain ⟨a, ha, hsize⟩ := mallocLoop_success_size _ _ _ _ _ _ _ _ _ _ h
      have hH : (0 : Nat) < HEADER_SIZE := by norm_num [HEADER_SIZE]
      rw [ceil_formula _ _ hH] at hsize
      exact ⟨a, ha, hsize, by omega⟩

/-- Witness for C5: `malloc(32)` on `c4State` returns payload 264 with block
header at 263 storing `ceil(32/16) + 1 = 3` units. -/
theorem malloc_request_sizing_witness :
    ∃ a, (264 : Nat) = a + 1 ∧
      (mget
          ((allocator_freelist_malloc 1000000 4096 [] 10 10 c4State 32).map
              Prod.snd |>.getD c4State).mem a).size
        = specCeilDiv (memory_aligned_size 32 MEMORY_ALIGNMENT) HEADER_SIZE
            + 1 ∧
      (mget
          ((allocator_freelist_malloc 1000000 4096 [] 10 10 c4State 32).map
              Prod.snd |>.getD c4State).mem a).size - 1
        = specCeilDiv (memory_aligned_size 32 MEMORY_ALIGNMENT) HEADER_SIZE := by
  obtain ⟨a, ha, h1, h2⟩ :=
    malloc_request_sizing 1000000 4096 [] 10 10 c4State 32 264
      ((allocator_freelist_malloc 1000000 4096 [] 10 10 c4State 32).map
          Prod.snd |>.getD c4State)
      (by decide)
  exact ⟨a, ha, h1, h2⟩

/-! ## C6: failure cases of `malloc` leave the free list untouched. -/

/-- `heap_bump` with `MAP_FAILED` is the C function returning `NULL`. -/
theorem heap_bump_mmap_failed (pageSize ifuel : Nat) (s : KnrState)
    (nunits : Nat) :
    allocator_freelist_heap_bump pageSize none ifuel s nunits = some none :=
  rfl

/-- When every available platform answer is `MAP_FAILED`, a `NULL` result
from the first-fit loop leaves the state exactly as it was. -/
theorem mallocLoop_growth_refused (pageSize ifuel nunits : Nat) :
    ∀ (fuel : Nat) (mmaps : List (Option Nat)) (s : KnrState) (prev cur : Nat)
      (r : Option Nat) (s' : KnrState),
      (∀ mm ∈ mmaps, mm = none) →
      mallocLoop pageSize mmaps ifuel s nunits prev cur fuel = some (r, s') →
      r = none → s' = s := by
  intro fuel
  induction fuel with
  | zero =>
    intro mmaps s prev cur r s' _ h
    simp [mallocLoop] at h
  | succ fuel ih =>
    intro mmaps s prev cur r s' hmm h hr
    subst hr
    simp only [mallocLoop] at h
    by_cases hfit : (mget s.mem cur).size ≥ nunits
    · rw [if_pos hfit] at h
      by_cases hexact : (mget s.mem cur).size = nunits
      · rw [if_pos hexact] at h
        simp at h
      · rw [if_neg hexact] at h
        simp at h
    · rw [if_neg hfit] at h
      by_cases hcur : some cur = s.freelist
      · rw [if_pos hcur] at h
        split at h
        · simp at h
        · rename_i mm rest
          have hmn : mm = none := hmm mm (List.mem_cons_self mm rest)
          subst hmn
          split at h
          · rename_i hb
            rw [heap_bump_mmap_failed] at hb
            simp at hb
          · obtain ⟨_, hs⟩ : (none : Option Nat) = none ∧ s = s' := by simpa using h
            exact hs.symm
          · rename_i s2 hb
            rw [heap_bump_mmap_failed] at hb
            simp at hb
      · rw [if_neg hcur] at h
        exact ih _ _ _ _ _ _ (fun mm hm => hmm mm hm) h rfl

/-- C6: on an initialized allocator, `malloc` fails with `NULL` and leaves
the state untouched in each of the three failure cases: `size == 0`,
`size > MAX_RAM`, and the platform refusing the heap-growth request (the
last conjunct shows the refusal step itself returns `NULL` with the state
unchanged, and the one before it that any `NULL` outcome of a search whose
platform answers are all failures preserves the state). -/
theorem malloc_failure_leaves_state (ramMax pageSize fuel ifuel : Nat)
    (s : KnrState) (fl : Nat) (hfl : s.freelist = some fl)
    (hram : s.maxRam ≠ 0) :
    (∀ mmaps, allocator_freelist_malloc ramMax pageSize mmaps fuel ifuel s 0
        = some (none, s)) ∧
    (∀ n mmaps, n > s.maxRam →
      allocator_freelist_malloc ramMax pageSize mmaps fuel ifuel s n
        = some (none, s)) ∧
    (∀ n r s', allocator_freelist_malloc ramMax pageSize [none] fuel ifuel s n
        = some (r, s') → r = none → s' = s) ∧
    (∀ rest nunits prev cur fuel2, (mget s.mem cur).size < nunits →
      some cur = s.freelist →
      mallocLoop pageSize (none :: rest) ifuel s nunits prev cur (fuel2 + 1)
        = some (none, s)) := by
  have hInit : allocator_freelist_init ramMax s = s := by
    simp only [allocator_freelist_init, if_neg hram, hfl]
  refine ⟨?_, ?_, ?_, ?_⟩
  · intro mmaps
    simp [allocator_freelist_malloc, hInit]
  · intro n mmaps hn
    simp only [allocator_freelist_malloc, hInit]
    rw [if_pos (Or.inr hn)]
  · intro n r s' h hr
    simp only [allocator_freelist_malloc, hInit] at h
    split at h
    · obtain ⟨hr2, hs⟩ : (none : Option Nat) = r ∧ s = s' := by simpa using h
      exact hs.symm
    · rw [hfl] at h
      exact mallocLoop_growth_refused pageSize ifuel _ fuel [none] s fl _ r s'
        (by intro mm hm; simpa using hm) h hr
  · intro rest nunits prev cur fuel2 hsize hcur
    simp only [mallocLoop]
    rw [if_neg (by omega), if_pos hcur]
    rfl

/-- Witness for C6 on `c4State` (sentinel 1000, one 10-unit free block):
`malloc(0)` and `malloc(2000000)` return `NULL` with the state unchanged,
a growth-refused search returns `NULL` with the state unchanged, and the
refusal step at the cursor preserves the state. -/
theorem malloc_failure_leaves_state_witness :
    (∀ mmaps, allocator_freelist_malloc 1000000 4096 mmaps 10 10 c4State 0
        = some (none, c4State)) ∧
    (∀ n mmaps, n > c4State.maxRam →
      allocator_freelist_malloc 1000000 4096 mmaps 10 10 c4State n
        = some (none, c4State)) ∧
    (∀ n r s', allocator_freelist_malloc 1000000 4096 [none] 10 10 c4State n
        = some (r, s') → r = none → s' = c4State) ∧
    (∀ rest nunits prev cur fuel2, (mget c4State.mem cur).size < nunits →
      some cur = c4State.freelist →
      mallocLoop 4096 (none :: rest) 10 c4State nunits prev cur (fuel2 + 1)
        = some (none, c4State)) :=
  malloc_failure_leaves_state 1000000 4096 10 10 c4State 1000 rfl (by decide)

/-! ## C8: the `freelist_initialize` / `freelist_terminate` lifecycle
(src/docs/allocator/freelist.md, declared in the `include/allocator/knr.c`
header draft).

The state of that variant: `base` and `head` are the two module globals
(`none` = `NULL`); `ring` lists the addresses of the non-sentinel nodes in
`next` order starting from `base->next` (the circular list is `base`
followed by `ring`, the last node linking back to `base`). -/

/-- Globals of the docs' free-list variant. -/
structure DocState where
  base : Option Nat
  head : Option Nat
  ring : List Nat
deriving DecidableEq, Repr

/-- `freelist_initialize` (src/docs/allocator/freelist.md:67-83): when
`base` is `NULL`, allocate the sentinel (`allocAddr = none` models
`memory_alloc` failing, in which case return `false` with nothing changed);
then, when `head` is `NULL`, link `base` to itself (`ring := []`), zero its
size, and point `head` at `base`; return `true`. -/
def freelist_initialize (allocAddr : Option Nat) (s : DocState) :
    Bool × DocState :=
  match s.base with
  | none =>
    match allocAddr with
    | none => (false, s)
    | some a =>
      let t : DocState := { s with base := some a }
      match t.head with
      | none => (true, { t with head := t.base, ring := [] })
      | some _ => (true, t)
  | some _ =>
    match s.head with
    | none => (true, { s with head := s.base, ring := [] })
    | some _ => (true, s)

/-- `freelist_terminate` (src/docs/allocator/freelist.md:120-137): if `base`
is `NULL`, fail; otherwise walk from `base->next` freeing every non-sentinel
node (the walk visits exactly `ring`, in order), then free the sentinel and
null both globals. Returns the success flag, the new state, and the
addresses freed, in the order they were freed. -/
def freelist_terminate (s : DocState) : Bool × DocState × List Nat :=
  match s.base with
  | none => (false, s, [])
  | some b => (true, ⟨none, none, []⟩, s.ring ++ [b])

/-- C8: `freelist_terminate` on a never-initialized allocator (`base =
NULL`) returns failure and changes nothing; on an initialized one it
succeeds, frees exactly the non-sentinel nodes reachable from `base->next`
followed by the sentinel, resets both globals to `NULL`, and a subsequent
`freelist_initialize` (with the platform granting a sentinel at `a`)
succeeds again. -/
theorem freelist_terminate_spec (s : DocState) (a : Nat) :
    (s.base = none → freelist_terminate s = (false, s, [])) ∧
    (∀ b, s.base = some b →
      freelist_terminate s = (true, ⟨none, none, []⟩, s.ring ++ [b]) ∧
      freelist_initialize (some a) (freelist_terminate s).2.1
        = (true, ⟨some a, some a, []⟩)) := by
  constructor
  · intro h
    simp [freelist_terminate, h]
  · intro b hb
    constructor
    · simp [freelist_terminate, hb]
    · simp [freelist_terminate, hb, freelist_initialize]

/-- Witness for C8 on the initialized state `base = 7`, `head = 7`,
`ring = [3, 5]`: terminate frees `3, 5, 7` in that order, clears the
globals, and re-initialization with a sentinel at 9 succeeds. -/
theorem freelist_terminate_spec_witness :
    freelist_terminate ⟨some 7, some 7, [3, 5]⟩
        = (true, ⟨none, none, []⟩, [3, 5, 7]) ∧
      freelist_initialize (some 9)
          (freelist_terminate ⟨some 7, some 7, [3, 5]⟩).2.1
        = (true, ⟨some 9, some 9, []⟩) :=
  (freelist_terminate_spec ⟨some 7, some 7, [3, 5]⟩ 9).2 7 rfl

end Attica
